import Mathlib

/-!
Shallow embedding of the time-partitioned index lifecycle layer of the
Jaeger Elasticsearch storage driver: index naming
(`config.IndexWithDate`, `config.GetDataStreamLegacyWildcard`), the
sampling store's write-target / read-plan / latest-index logic
(`samplingstore.SamplingStore`), and the dependency store's write path
(`depstore.DependencyStore`).

Instants are modelled as seconds since the Unix epoch (`Int`); Go
`time.Duration` values are seconds (`Int`); a Go `time.Time` carries an
absolute epoch instant plus a display-location offset.  The date layout
"2006-01-02" is modelled by rendering the civil date of the day number
`epoch / 86400` (the value of `t.UTC().Format("2006-01-02")`).  The
Elasticsearch client is modelled as an explicit oracle, and the two
source loops that are not structurally terminating are given explicit
fuel: a `none` result means the Go loop would not have returned within
that many iterations.
-/

/-- Civil-calendar conversion: day number (days since 1970-01-01, UTC) to
`(year, month, day)`.  This is the calendar arithmetic behind Go
`time.Time.Format` for pure date layouts. -/
def civilFromDays (z : Int) : Int × Int × Int :=
  let zz := z + 719468
  let era := zz / 146097
  let doe := zz - era * 146097
  let yoe := (doe - doe / 1460 + doe / 36524 - doe / 146096) / 365
  let y := yoe + era * 400
  let doy := doe - (365 * yoe + yoe / 4 - yoe / 100)
  let mp := (5 * doy + 2) / 153
  let d := doy - (153 * mp + 2) / 5 + 1
  let m := mp + (if mp < 10 then 3 else -9)
  (y + (if m ≤ 2 then 1 else 0), m, d)

/-- Two-digit zero padding, as Go layout verbs "01" / "02" render month and
day numbers. -/
def pad2 (n : Int) : String :=
  if 0 ≤ n ∧ n < 10 then ("0" ++ toString n) else toString n

/-- Four-digit zero padding, as the Go layout verb "2006" renders years. -/
def pad4 (n : Int) : String :=
  if 0 ≤ n ∧ n < 10 then ("000" ++ toString n)
  else if 0 ≤ n ∧ n < 100 then ("00" ++ toString n)
  else if 0 ≤ n ∧ n < 1000 then ("0" ++ toString n)
  else toString n

/-- Rendering of the civil date of a day number in the form "2006-01-02". -/
def renderDate (z : Int) : String :=
  let c := civilFromDays z
  pad4 c.1 ++ "-" ++ pad2 c.2.1 ++ "-" ++ pad2 c.2.2

/-- The index date layouts used by the stores.  `ymd` is the Go layout
string "2006-01-02". -/
inductive DateLayout where
  | ymd
deriving DecidableEq

/-- The length in seconds of one period of a date layout (the granularity
of the formatted name). -/
def layoutGranularity : DateLayout → Int
  | .ymd => 86400

/-- The formatted name of one whole layout period, by period number. -/
def renderPeriod : DateLayout → Int → String
  | .ymd, z => renderDate z

/-- Go `Format` of an instant (seconds since epoch, already shifted into
the display location) under a date layout: the civil date of the day the
instant falls in. -/
def formatLayout (l : DateLayout) (t : Int) : String :=
  renderPeriod l (t / layoutGranularity l)

/-- A Go `time.Time`: an absolute instant (seconds since Unix epoch) plus
the offset of its display location from UTC (seconds).  The location
affects only formatting, never the instant. -/
structure GoTime where
  epoch : Int
  loc : Int
deriving DecidableEq

/-- Go `Time.UTC`: same instant, display location set to UTC. -/
def GoTime.utc (t : GoTime) : GoTime := ⟨t.epoch, 0⟩

/-- Go `Time.Add`: shift the instant by a duration (seconds). -/
def GoTime.addDur (t : GoTime) (d : Int) : GoTime := ⟨t.epoch + d, t.loc⟩

/-- Go `Time.Format` with a date layout: renders the wall-clock date in the
time's display location. -/
def GoTime.format (t : GoTime) (l : DateLayout) : String :=
  formatLayout l (t.epoch + t.loc)

/-- `config.IndexWithDate`: returns the index name with date, i.e.
`indexPrefix + date.UTC().Format(indexDateLayout)`. -/
def indexWithDate (indexPfx : String) (l : DateLayout) (date : GoTime) : String :=
  indexPfx ++ (date.utc.format l)

/-- Replace the first occurrence of character `a` by `b` in a character
list (the semantics of Go `strings.Replace(s, a, b, 1)` for one-character
patterns). -/
def replaceFirstChar : List Char → Char → Char → List Char
  | [], _, _ => []
  | c :: cs, a, b => if c = a then b :: cs else c :: replaceFirstChar cs a b

/-- Go `strings.Replace(s, ".", "-", 1)` for one-character pattern and
replacement. -/
def stringsReplaceFirst (s : String) (a b : Char) : String :=
  ⟨replaceFirstChar s.data a b⟩

/-- `config.GetDataStreamLegacyWildcard`: replaces the first dot with a
dash and appends a wildcard.  Example: jaeger.span -> jaeger-span-*. -/
def getDataStreamLegacyWildcard (dataStreamName : String) : String :=
  stringsReplaceFirst dataStreamName '.' '-' ++ "-*"

/-- Modelled from the spec: `config.IndexPrefix.Apply` is not under the
shown sources; per the spec, an `IndexPrefix` is "an optional string
prepended to every base name", separated from the base with the index
prefix separator when non-empty. -/
def indexPfxApply (p : String) (name : String) : String :=
  if p = "" then name else p ++ "-" ++ name

/-- Modelled from the spec: `config.IndexPrefixSeparator` is not under the
shown sources; the dated index names in the shown documents and tests
(for example "jaeger-span-2025-01-01") use a dash separator. -/
def indexPfxSeparator : String := "-"

/-- One emitted single-document write: target index, document type,
optional explicit document id (`Id()` call), and the operation type passed
to `Add`. -/
structure WriteOp where
  index : String
  docType : String
  id : Option String
  opType : String
deriving DecidableEq

/-- `samplingstore.SamplingStore` (the client and logger are modelled as
explicit oracles at the call sites). -/
structure SamplingStore where
  samplingIndexPfx : String
  indexDateLayout : DateLayout
  maxDocCount : Nat
  indexRolloverFrequency : Int
  lookback : Int
  useDataStream : Bool

/-- `samplingstore.NewSamplingStore`: picks the data-stream base name when
data streams are enabled, applies the optional prefix, and appends the
index prefix separator only in dated-index mode. -/
def newSamplingStore (indexPfx : String) (l : DateLayout) (freq lookback : Int)
    (maxDocCount : Nat) (useDataStream : Bool) : SamplingStore :=
  let samplingIndexBase := if useDataStream then ("jaeger.sampling") else ("jaeger-sampling")
  let p := indexPfxApply indexPfx samplingIndexBase
  let p := if useDataStream then p else p ++ indexPfxSeparator
  { samplingIndexPfx := p
    indexDateLayout := l
    maxDocCount := maxDocCount
    indexRolloverFrequency := freq
    lookback := lookback
    useDataStream := useDataStream }

/-- `SamplingStore.getWriteIndex`: the stable data-stream name in
data-stream mode, otherwise the dated index name for the write instant. -/
def SamplingStore.getWriteIndex (s : SamplingStore) (ts : GoTime) : String :=
  if s.useDataStream then s.samplingIndexPfx
  else indexWithDate s.samplingIndexPfx s.indexDateLayout ts

/-- The backward walk of `SamplingStore.getReadIndices`: emit the name for
the cursor, step the cursor by the rollover frequency, stop when the name
equals `firstIndex`.  `fuel` bounds the iterations; `none` means the Go
loop would still be running after that many iterations. -/
def readIndicesLoop (pfx : String) (l : DateLayout) (freq : Int)
    (firstIndex : String) : Nat → GoTime → Option (List String)
  | 0, _ => none
  | fuel + 1, endTime =>
    if indexWithDate pfx l endTime = firstIndex then some []
    else (readIndicesLoop pfx l freq firstIndex fuel (endTime.addDur freq)).map
      (fun rest => indexWithDate pfx l endTime :: rest)

/-- `SamplingStore.getReadIndices`: in data-stream mode the stable name
plus the legacy wildcard; otherwise the backward walk from the name
covering `endTime` to the name covering `startTime`, appending the
boundary name last. -/
def SamplingStore.getReadIndices (s : SamplingStore) (fuel : Nat)
    (startTime endTime : GoTime) : Option (List String) :=
  if s.useDataStream then
    some [s.samplingIndexPfx, getDataStreamLegacyWildcard s.samplingIndexPfx]
  else
    let firstIndex := indexWithDate s.samplingIndexPfx s.indexDateLayout startTime
    (readIndicesLoop s.samplingIndexPfx s.indexDateLayout s.indexRolloverFrequency
        firstIndex fuel endTime).map (fun emitted => emitted ++ [firstIndex])

/-- The backward scan of `SamplingStore.getLatestIndices`: check existence
of the cursor's name; on a hit return it; at the earliest name fail; else
step by the rollover frequency.  Returns the outcome together with the
list of names whose existence was checked; `none` means the Go loop would
still be running after `fuel` iterations. -/
def latestLoop (pfx : String) (l : DateLayout) (freq : Int)
    (earliestIndex : String) (existsFn : String → Except String Bool) :
    Nat → GoTime → Option (Except String (List String) × List String)
  | 0, _ => none
  | fuel + 1, now =>
    match existsFn (indexWithDate pfx l now) with
    | .error e => some (.error ("failed to check index existence: " ++ e),
        [indexWithDate pfx l now])
    | .ok true => some (.ok [indexWithDate pfx l now], [indexWithDate pfx l now])
    | .ok false =>
      if indexWithDate pfx l now = earliestIndex then
        some (.error ("falied to find latest index"), [indexWithDate pfx l now])
      else (latestLoop pfx l freq earliestIndex existsFn fuel (now.addDur freq)).map
        (fun r => (r.1, indexWithDate pfx l now :: r.2))

/-- `SamplingStore.getLatestIndices`: in data-stream mode the stable name
plus the legacy wildcard (no existence checks); otherwise the bounded
backward scan from `now` (UTC) toward the name of `now - lookback`. -/
def SamplingStore.getLatestIndices (s : SamplingStore)
    (existsFn : String → Except String Bool) (now : GoTime) (fuel : Nat) :
    Option (Except String (List String) × List String) :=
  if s.useDataStream then
    some (.ok [s.samplingIndexPfx, getDataStreamLegacyWildcard s.samplingIndexPfx], [])
  else
    let nowU := now.utc
    let earliest := nowU.addDur (-s.lookback)
    let earliestIndex := indexWithDate s.samplingIndexPfx s.indexDateLayout earliest
    latestLoop s.samplingIndexPfx s.indexDateLayout s.indexRolloverFrequency
      earliestIndex existsFn fuel nowU

/-- `SamplingStore.InsertThroughput`: one write per throughput record, no
explicit document id, operation type "create" when data streams are
enabled or the client major version is at least 8; always returns a nil
error.  `clientOutcome` models what the index operation would answer; the
source never consults it. -/
def SamplingStore.insertThroughput (s : SamplingStore) (esVersion : Nat)
    (clientOutcome : WriteOp → Except String Unit) (ts : GoTime)
    (throughputs : List α) : List WriteOp × Option String :=
  let _ := clientOutcome
  let indexName := s.getWriteIndex ts
  let opType := if s.useDataStream || esVersion ≥ 8 then ("create") else ("")
  (throughputs.map (fun _ =>
      { index := indexName
        docType := ("throughput-sampling")
        id := none
        opType := opType }),
    none)

/-- `SamplingStore.InsertProbabilitiesAndQPS` together with
`writeProbabilitiesAndQPS`: one write, no explicit document id, operation
type "create" when data streams are enabled or the client major version is
at least 8; always returns a nil error. -/
def SamplingStore.insertProbabilitiesAndQPS (s : SamplingStore) (esVersion : Nat)
    (clientOutcome : WriteOp → Except String Unit) (ts : GoTime) :
    List WriteOp × Option String :=
  let _ := clientOutcome
  let writeIndexName := s.getWriteIndex ts
  let opType := if s.useDataStream || esVersion ≥ 8 then ("create") else ("")
  ([{ index := writeIndexName
      docType := ("probabilities-sampling")
      id := none
      opType := opType }],
    none)

/-- The Elasticsearch client collaborator as seen by the dependency
store's index-creation path: an existence-check oracle and a
creation oracle. -/
structure EsClient where
  indexExists : String → Except String Bool
  createIndex : String → Except String Unit

/-- One call made to the Elasticsearch client collaborator. -/
inductive ClientCall where
  | indexExists (name : String)
  | createIndex (name : String)
deriving DecidableEq

/-- `depstore.DependencyStore` (client and logger modelled as oracles). -/
structure DependencyStore where
  dependencyIndexPfx : String
  indexDateLayout : DateLayout
  indexRolloverFrequency : Int
  maxDocCount : Nat
  useReadWriteAliases : Bool

/-- `depstore.NewDependencyStore`: applies the optional prefix to the
dependencies base name and appends the index prefix separator. -/
def newDependencyStore (indexPfx : String) (l : DateLayout) (freq : Int)
    (maxDocCount : Nat) (useReadWriteAliases : Bool) : DependencyStore :=
  { dependencyIndexPfx :=
      indexPfxApply indexPfx ("jaeger-dependencies") ++ indexPfxSeparator
    indexDateLayout := l
    indexRolloverFrequency := freq
    maxDocCount := maxDocCount
    useReadWriteAliases := useReadWriteAliases }

/-- `DependencyStore.getWriteIndex`: the write alias in read/write-alias
mode, otherwise the dated index name for the write instant. -/
def DependencyStore.getWriteIndex (s : DependencyStore) (ts : GoTime) : String :=
  if s.useReadWriteAliases then s.dependencyIndexPfx ++ "write"
  else indexWithDate s.dependencyIndexPfx s.indexDateLayout ts

/-- `DependencyStore.createIndex`: nothing to do in read/write-alias mode;
otherwise check existence and create the index only when the check says it
is absent.  Returns the outcome and the client calls made, in order. -/
def DependencyStore.createIndex (s : DependencyStore) (c : EsClient)
    (indexName : String) : Except String Unit × List ClientCall :=
  if s.useReadWriteAliases then (.ok (), [])
  else
    match c.indexExists indexName with
    | .error e => (.error e, [.indexExists indexName])
    | .ok true => (.ok (), [.indexExists indexName])
    | .ok false =>
      (c.createIndex indexName, [.indexExists indexName, .createIndex indexName])

/-- `DependencyStore.WriteDependencies`: resolve the write target, run
`createIndex`, and only on success emit the single dependencies document
write (no explicit id, empty operation type). -/
def DependencyStore.writeDependencies (s : DependencyStore) (c : EsClient)
    (ts : GoTime) : Except String Unit × List ClientCall × Option WriteOp :=
  let indexName := s.getWriteIndex ts
  match s.createIndex c indexName with
  | (.error e, calls) => (.error e, calls, none)
  | (.ok _, calls) =>
    (.ok (), calls,
      some { index := indexName
             docType := ("dependencies")
             id := none
             opType := ("") })

/-- Modelled from the spec: the span writer's service/operation record
write (`ServiceOperationStorage.Write`) is not under the shown sources,
only its tests are.  Per the spec, in dated-index and alias modes the
record is written with a deterministic hash-derived document id and
default operation type; under data-stream mode the write must not specify
a document id and must use the create operation type. -/
def writeServiceOp (useDataStream : Bool) (indexName serviceHash : String) : WriteOp :=
  if useDataStream then
    { index := indexName, docType := ("service"), id := none, opType := ("create") }
  else
    { index := indexName, docType := ("service"), id := some serviceHash, opType := ("") }

/-- The read plan the spec prescribes for data-stream mode, written from
the spec's words for comparison with the source: the stable name alone
when the migration gate is disabled, the stable name plus the legacy
wildcard when it is enabled. -/
def buildReadPlanDataStreamSpecModel (gateEnabled : Bool) (name : String) : List String :=
  if gateEnabled then [name, getDataStreamLegacyWildcard name] else [name]

/-- Whether the dated-index read-plan walk returns at all for the given
inputs (with any amount of fuel). -/
def samplingReadPlanTerminates (s : SamplingStore) (startTime endTime : GoTime) : Prop :=
  ∃ fuel, (s.getReadIndices fuel startTime endTime).isSome = true

/-- The descending list of period numbers `[hi, hi - 1, ..., lo]`. -/
def periodsDesc (lo hi : Int) : List Int :=
  (List.range ((hi - lo).toNat + 1)).map (fun i : Nat => hi - (i : Int))

theorem layoutGranularity_pos (l : DateLayout) : 0 < layoutGranularity l := by
  cases l
  decide

theorem indexWithDate_eq (p : String) (l : DateLayout) (d : GoTime) :
    indexWithDate p l d = p ++ renderPeriod l (d.epoch / layoutGranularity l) := by
  simp [indexWithDate, GoTime.utc, GoTime.format, formatLayout]

theorem periodsDesc_self (lo : Int) : periodsDesc lo lo = [lo] := by
  unfold periodsDesc
  rw [sub_self]
  show List.map _ (List.range (0 + 1)) = _
  rw [zero_add, List.range_succ, List.range_zero, List.nil_append, List.map_cons, List.map_nil]
  norm_num

theorem periodsDesc_cons {lo hi : Int} (h : lo ≤ hi) :
    periodsDesc lo (hi + 1) = (hi + 1) :: periodsDesc lo hi := by
  have h1 : (hi + 1 - lo).toNat + 1 = ((hi - lo).toNat + 1) + 1 := by omega
  unfold periodsDesc
  rw [h1, List.range_succ_eq_map, List.map_cons, List.map_map]
  refine congrArg₂ List.cons (by norm_num) ?_
  apply List.map_congr_left
  intro i _
  simp only [Function.comp_apply]
  push_cast
  ring

theorem mem_periodsDesc {lo hi k : Int} (h : lo ≤ hi) :
    k ∈ periodsDesc lo hi ↔ lo ≤ k ∧ k ≤ hi := by
  unfold periodsDesc
  rw [List.mem_map]
  constructor
  · rintro ⟨i, hi1, rfl⟩
    rw [List.mem_range] at hi1
    omega
  · rintro ⟨h1, h2⟩
    refine ⟨(hi - k).toNat, ?_, ?_⟩
    · rw [List.mem_range]
      omega
    · omega

theorem length_periodsDesc (lo hi : Int) :
    (periodsDesc lo hi).length = (hi - lo).toNat + 1 := by
  unfold periodsDesc
  rw [List.length_map, List.length_range]

theorem readLoop_char (pfx : String) (l : DateLayout) (lo : Int) :
    ∀ (n fuel : Nat) (t : GoTime),
      t.epoch / layoutGranularity l = lo + n →
      n < fuel →
      ((periodsDesc lo (lo + n)).map (fun k => pfx ++ renderPeriod l k)).Nodup →
      ∃ L, readIndicesLoop pfx l (-(layoutGranularity l)) (pfx ++ renderPeriod l lo) fuel t
             = some L ∧
           L ++ [pfx ++ renderPeriod l lo]
             = (periodsDesc lo (lo + n)).map (fun k => pfx ++ renderPeriod l k) := by
  intro n
  induction n with
  | zero =>
    intro fuel t ht hfuel _
    obtain ⟨m, rfl⟩ : ∃ m, fuel = m + 1 := ⟨fuel - 1, by omega⟩
    rw [Nat.cast_zero, add_zero] at ht
    refine ⟨[], ?_, ?_⟩
    · simp [readIndicesLoop, indexWithDate_eq, ht]
    · rw [Nat.cast_zero, add_zero, periodsDesc_self]
      rfl
  | succ n ih =>
    intro fuel t ht hfuel hnodup
    obtain ⟨m, rfl⟩ : ∃ m, fuel = m + 1 := ⟨fuel - 1, by omega⟩
    have hcast : lo + ((n + 1 : Nat) : Int) = (lo + n) + 1 := by push_cast; ring
    rw [hcast] at ht hnodup
    rw [hcast]
    have hcons : periodsDesc lo ((lo + n) + 1) = ((lo + n) + 1) :: periodsDesc lo (lo + n) :=
      periodsDesc_cons (by omega)
    rw [hcons] at hnodup ⊢
    rw [List.map_cons] at hnodup ⊢
    rw [List.nodup_cons] at hnodup
    have hlomem : pfx ++ renderPeriod l lo
        ∈ (periodsDesc lo (lo + n)).map (fun k => pfx ++ renderPeriod l k) :=
      List.mem_map.mpr ⟨lo, (mem_periodsDesc (by omega)).mpr ⟨le_refl lo, by omega⟩, rfl⟩
    have hne : pfx ++ renderPeriod l ((lo + n) + 1) ≠ pfx ++ renderPeriod l lo := by
      intro hEq
      refine hnodup.1 ?_
      rw [hEq]
      exact hlomem
    have hg : layoutGranularity l ≠ 0 := by
      have := layoutGranularity_pos l
      omega
    have ht' : (t.addDur (-(layoutGranularity l))).epoch / layoutGranularity l = lo + n := by
      have h3 : (t.addDur (-(layoutGranularity l))).epoch
          = t.epoch + (-1) * layoutGranularity l := by
        show t.epoch + (-(layoutGranularity l)) = t.epoch + (-1) * layoutGranularity l
        ring
      rw [h3, Int.add_mul_ediv_right t.epoch (-1) hg, ht]
      ring
    obtain ⟨L, hL, hLspec⟩ := ih m (t.addDur (-(layoutGranularity l))) ht' (by omega) hnodup.2
    refine ⟨(pfx ++ renderPeriod l ((lo + n) + 1)) :: L, ?_, ?_⟩
    · simp only [readIndicesLoop, indexWithDate_eq, ht]
      rw [if_neg hne, hL]
      rfl
    · rw [List.cons_append, hLspec]

/-- Claim C2 (amended): in dated-index mode, for a rollover frequency of
exactly minus one layout period, pairwise-distinct formatted names over
the walked periods, and `start` and `end` with the period of `start` not
after the period of `end`, the read plan is exactly one name per period,
walking from the period covering `end` down to the period covering
`start`: it has no duplicates, contains the name of every instant in
`[start, end]`, contains only names of instants in `[start, end]`, and for
`start = end` is exactly `[IndexWithDate(prefix, layout, start)]`. -/
theorem claim_C2_thm (s : SamplingStore) (fuel : Nat) (startTime endTime : GoTime)
    (hm : s.useDataStream = false)
    (hf : s.indexRolloverFrequency = -(layoutGranularity s.indexDateLayout))
    (hse : startTime.epoch ≤ endTime.epoch)
    (hfuel : (endTime.epoch / layoutGranularity s.indexDateLayout
              - startTime.epoch / layoutGranularity s.indexDateLayout).toNat < fuel)
    (hnodup : ((periodsDesc (startTime.epoch / layoutGranularity s.indexDateLayout)
          (endTime.epoch / layoutGranularity s.indexDateLayout)).map
        (fun k => s.samplingIndexPfx ++ renderPeriod s.indexDateLayout k)).Nodup) :
    ∃ plan,
      s.getReadIndices fuel startTime endTime = some plan ∧
      plan = (periodsDesc (startTime.epoch / layoutGranularity s.indexDateLayout)
          (endTime.epoch / layoutGranularity s.indexDateLayout)).map
        (fun k => s.samplingIndexPfx ++ renderPeriod s.indexDateLayout k) ∧
      plan.Nodup ∧
      (∀ t : Int, startTime.epoch ≤ t → t ≤ endTime.epoch →
        s.samplingIndexPfx
          ++ renderPeriod s.indexDateLayout (t / layoutGranularity s.indexDateLayout)
          ∈ plan) ∧
      (∀ nm ∈ plan, ∃ t : Int, startTime.epoch ≤ t ∧ t ≤ endTime.epoch ∧
        nm = s.samplingIndexPfx
          ++ renderPeriod s.indexDateLayout (t / layoutGranularity s.indexDateLayout)) ∧
      (startTime.epoch = endTime.epoch →
        plan = [indexWithDate s.samplingIndexPfx s.indexDateLayout startTime]) := by
  have hg : 0 < layoutGranularity s.indexDateLayout := layoutGranularity_pos s.indexDateLayout
  have hle : startTime.epoch / layoutGranularity s.indexDateLayout
      ≤ endTime.epoch / layoutGranularity s.indexDateLayout := Int.ediv_le_ediv hg hse
  have hED : startTime.epoch / layoutGranularity s.indexDateLayout
      + ((endTime.epoch / layoutGranularity s.indexDateLayout
          - startTime.epoch / layoutGranularity s.indexDateLayout).toNat : Int)
      = endTime.epoch / layoutGranularity s.indexDateLayout := by omega
  obtain ⟨L, hL, hLspec⟩ := readLoop_char s.samplingIndexPfx s.indexDateLayout
    (startTime.epoch / layoutGranularity s.indexDateLayout)
    ((endTime.epoch / layoutGranularity s.indexDateLayout
      - startTime.epoch / layoutGranularity s.indexDateLayout).toNat)
    fuel endTime (by rw [hED]) hfuel (by rw [hED]; exact hnodup)
  rw [hED] at hLspec
  refine ⟨L ++ [s.samplingIndexPfx
      ++ renderPeriod s.indexDateLayout
        (startTime.epoch / layoutGranularity s.indexDateLayout)], ?_, ?_, ?_, ?_, ?_, ?_⟩
  · unfold SamplingStore.getReadIndices
    rw [hm]
    simp only [Bool.false_eq_true, if_false]
    rw [indexWithDate_eq, hf, hL]
    rfl
  · exact hLspec
  · rw [hLspec]
    exact hnodup
  · intro t ht1 ht2
    rw [hLspec]
    refine List.mem_map.mpr ⟨t / layoutGranularity s.indexDateLayout, ?_, rfl⟩
    rw [mem_periodsDesc hle]
    exact ⟨Int.ediv_le_ediv hg ht1, Int.ediv_le_ediv hg ht2⟩
  · intro nm hnm
    rw [hLspec] at hnm
    obtain ⟨k, hk, rfl⟩ := List.mem_map.mp hnm
    rw [mem_periodsDesc hle] at hk
    by_cases hkS : k = startTime.epoch / layoutGranularity s.indexDateLayout
    · exact ⟨startTime.epoch, le_refl _, hse, by rw [hkS]⟩
    · refine ⟨k * layoutGranularity s.indexDateLayout, ?_, ?_, ?_⟩
      · have h1 := Int.lt_ediv_add_one_mul_self startTime.epoch hg
        have h2 : (startTime.epoch / layoutGranularity s.indexDateLayout + 1)
            * layoutGranularity s.indexDateLayout
            ≤ k * layoutGranularity s.indexDateLayout :=
          mul_le_mul_of_nonneg_right (by omega) hg.le
        omega
      · have h1 := Int.ediv_mul_le endTime.epoch hg.ne'
        have h2 : k * layoutGranularity s.indexDateLayout
            ≤ (endTime.epoch / layoutGranularity s.indexDateLayout)
              * layoutGranularity s.indexDateLayout :=
          mul_le_mul_of_nonneg_right hk.2 hg.le
        omega
      · rw [Int.mul_ediv_cancel k hg.ne']
  · intro hEq
    rw [hLspec]
    have : endTime.epoch / layoutGranularity s.indexDateLayout
        = startTime.epoch / layoutGranularity s.indexDateLayout := by rw [hEq]
    rw [this, periodsDesc_self, indexWithDate_eq]
    rfl

/-- Claim C2 counterexample: with the day layout and a backward step of
two days — a frequency that steps the cursor from `end` toward `start`
and is no finer than the layout granularity — the walk for
`start = 1970-01-01T00:00Z`, `end = 1970-01-03T00:00Z` skips
1970-01-02: the plan has a gap, although that period intersects
`[start, end]` (its name is the name of the in-range instant
1970-01-02T00:00Z), so the plan is not the set of all dated names whose
periods intersect the range. -/
theorem claim_C2_cex :
    SamplingStore.getReadIndices
        ⟨("jaeger-sampling-"), DateLayout.ymd, 1000, -172800, 0, false⟩ 10 ⟨0, 0⟩ ⟨172800, 0⟩
      = some [("jaeger-sampling-1970-01-03"), ("jaeger-sampling-1970-01-01")] ∧
    ("jaeger-sampling-1970-01-02")
      ∉ [("jaeger-sampling-1970-01-03"), ("jaeger-sampling-1970-01-01")] ∧
    indexWithDate ("jaeger-sampling-") DateLayout.ymd ⟨86400, 0⟩
      = ("jaeger-sampling-1970-01-02") := by
  exact ⟨by decide, by decide, by decide⟩

/-- Witness for claim C2's theorem at the spec's own scenario: one-day
rollover, day layout, `start = 2025-01-01T00:00Z`,
`end = 2025-01-03T12:00Z` gives the three-entry backward plan. -/
theorem claim_C2_witness :
    SamplingStore.getReadIndices
        ⟨("jaeger-sampling-"), DateLayout.ymd, 1000, -86400, 0, false⟩ 5
        ⟨1735689600, 0⟩ ⟨1735905600, 0⟩
      = some [("jaeger-sampling-2025-01-03"), ("jaeger-sampling-2025-01-02"),
          ("jaeger-sampling-2025-01-01")] := by
  obtain ⟨plan, h1, h2, -, -, -, -⟩ := claim_C2_thm
    ⟨("jaeger-sampling-"), DateLayout.ymd, 1000, -86400, 0, false⟩ 5
    ⟨1735689600, 0⟩ ⟨1735905600, 0⟩ rfl (by decide) (by decide) (by decide) (by decide)
  rw [h1, h2]
  decide

theorem readLoop_zero_none (pfx : String) (l : DateLayout) (firstIndex : String) (t : GoTime)
    (h : indexWithDate pfx l t ≠ firstIndex) :
    ∀ fuel, readIndicesLoop pfx l 0 firstIndex fuel t = none := by
  intro fuel
  induction fuel with
  | zero => rfl
  | succ n ih =>
    have ht : t.addDur 0 = t := by
      cases t
      simp [GoTime.addDur]
    simp only [readIndicesLoop, if_neg h, ht, ih, Option.map_none']

theorem readPlan_zero_freq_diverges (s : SamplingStore)
    (hm : s.useDataStream = false) (hf : s.indexRolloverFrequency = 0)
    (startTime endTime : GoTime)
    (hne : indexWithDate s.samplingIndexPfx s.indexDateLayout endTime
           ≠ indexWithDate s.samplingIndexPfx s.indexDateLayout startTime) :
    ¬ samplingReadPlanTerminates s startTime endTime := by
  rintro ⟨fuel, hfuel⟩
  have hnone := readLoop_zero_none s.samplingIndexPfx s.indexDateLayout
    (indexWithDate s.samplingIndexPfx s.indexDateLayout startTime) endTime hne fuel
  unfold SamplingStore.getReadIndices at hfuel
  rw [hm] at hfuel
  simp only [Bool.false_eq_true, if_false] at hfuel
  rw [hf, hnone] at hfuel
  simp at hfuel

/-- Claim C3 (amended): the dated-index read-plan walk terminates when the
rollover frequency is exactly minus one layout period, the walked names
are pairwise distinct, and `start ≤ end`; but no construction-time
validation or iteration cap exists: with a zero rollover frequency and
distinct boundary names, the walk loops forever instead of failing fast
with a configuration error. -/
theorem claim_C3_thm (s1 s2 : SamplingStore)
    (startTime1 endTime1 startTime2 endTime2 : GoTime)
    (hm1 : s1.useDataStream = false)
    (hf1 : s1.indexRolloverFrequency = -(layoutGranularity s1.indexDateLayout))
    (hse1 : startTime1.epoch ≤ endTime1.epoch)
    (hnodup1 : ((periodsDesc (startTime1.epoch / layoutGranularity s1.indexDateLayout)
          (endTime1.epoch / layoutGranularity s1.indexDateLayout)).map
        (fun k => s1.samplingIndexPfx ++ renderPeriod s1.indexDateLayout k)).Nodup)
    (hm2 : s2.useDataStream = false)
    (hf2 : s2.indexRolloverFrequency = 0)
    (hne2 : indexWithDate s2.samplingIndexPfx s2.indexDateLayout endTime2
            ≠ indexWithDate s2.samplingIndexPfx s2.indexDateLayout startTime2) :
    samplingReadPlanTerminates s1 startTime1 endTime1 ∧
    ¬ samplingReadPlanTerminates s2 startTime2 endTime2 := by
  constructor
  · have hg := layoutGranularity_pos s1.indexDateLayout
    have hle : startTime1.epoch / layoutGranularity s1.indexDateLayout
        ≤ endTime1.epoch / layoutGranularity s1.indexDateLayout := Int.ediv_le_ediv hg hse1
    have hED : startTime1.epoch / layoutGranularity s1.indexDateLayout
        + (((endTime1.epoch / layoutGranularity s1.indexDateLayout
            - startTime1.epoch / layoutGranularity s1.indexDateLayout).toNat : Nat) : Int)
        = endTime1.epoch / layoutGranularity s1.indexDateLayout := by omega
    obtain ⟨L, hL, -⟩ := readLoop_char s1.samplingIndexPfx s1.indexDateLayout
      (startTime1.epoch / layoutGranularity s1.indexDateLayout)
      ((endTime1.epoch / layoutGranularity s1.indexDateLayout
        - startTime1.epoch / layoutGranularity s1.indexDateLayout).toNat)
      ((endTime1.epoch / layoutGranularity s1.indexDateLayout
        - startTime1.epoch / layoutGranularity s1.indexDateLayout).toNat + 1) endTime1
      (by rw [hED]) (by omega) (by rw [hED]; exact hnodup1)
    refine ⟨(endTime1.epoch / layoutGranularity s1.indexDateLayout
        - startTime1.epoch / layoutGranularity s1.indexDateLayout).toNat + 1, ?_⟩
    unfold SamplingStore.getReadIndices
    rw [hm1]
    simp only [Bool.false_eq_true, if_false]
    rw [indexWithDate_eq, hf1, hL]
    rfl
  · exact readPlan_zero_freq_diverges s2 hm2 hf2 startTime2 endTime2 hne2

/-- Claim C3 counterexample: `NewSamplingStore` accepts a zero rollover
frequency without any validation, and with it the dated-index read-plan
walk between two instants in different periods never returns, for any
number of loop iterations — no fail-fast configuration error and no
iteration cap exist. -/
theorem claim_C3_cex :
    ¬ samplingReadPlanTerminates
        (newSamplingStore ("") DateLayout.ymd 0 604800 1000 false) ⟨0, 0⟩ ⟨93600, 0⟩ := by
  exact readPlan_zero_freq_diverges _ rfl rfl _ _ (by decide)

/-- Witness for claim C3's theorem: a store with one-day backward rollover
terminates on a one-day range, and a store with zero rollover frequency
never terminates on a range spanning two periods. -/
theorem claim_C3_witness :
    samplingReadPlanTerminates
        ⟨("jaeger-sampling-"), DateLayout.ymd, 1000, -86400, 604800, false⟩
        ⟨0, 0⟩ ⟨86400, 0⟩ ∧
    ¬ samplingReadPlanTerminates
        ⟨("jaeger-sampling-"), DateLayout.ymd, 1000, 0, 604800, false⟩
        ⟨0, 0⟩ ⟨93600, 0⟩ :=
  claim_C3_thm _ _ _ _ _ _ rfl (by decide) (by decide) (by decide) rfl (by decide) (by decide)

/-- Claim C1 (amended): in data-stream mode the sampling read plan (and
the latest-indices plan) is always exactly the stable data-stream name
followed by its legacy wildcard; the code consults no migration gate, so
the wildcard is included unconditionally. -/
theorem claim_C1_thm (s : SamplingStore) (fuel1 fuel2 : Nat)
    (startTime endTime now : GoTime) (existsFn : String → Except String Bool)
    (h : s.useDataStream = true) :
    s.getReadIndices fuel1 startTime endTime
      = some [s.samplingIndexPfx, getDataStreamLegacyWildcard s.samplingIndexPfx] ∧
    s.getLatestIndices existsFn now fuel2
      = some (.ok [s.samplingIndexPfx, getDataStreamLegacyWildcard s.samplingIndexPfx], []) := by
  constructor
  · unfold SamplingStore.getReadIndices
    rw [h]
    simp
  · unfold SamplingStore.getLatestIndices
    rw [h]
    simp

/-- Claim C1 counterexample: the data-stream sampling store's read plan at
a concrete range is the stable name plus the legacy wildcard, which
differs from the spec's gate-disabled plan of the stable name alone; the
code takes no gate input, so no gate state can produce the
gate-disabled plan. -/
theorem claim_C1_cex :
    SamplingStore.getReadIndices
        (newSamplingStore ("") DateLayout.ymd (-86400) 604800 1000 true) 5 ⟨0, 0⟩ ⟨0, 0⟩
      = some [("jaeger.sampling"), ("jaeger-sampling-*")] ∧
    buildReadPlanDataStreamSpecModel false ("jaeger.sampling") = [("jaeger.sampling")] ∧
    some [("jaeger.sampling"), ("jaeger-sampling-*")]
      ≠ some [("jaeger.sampling")] := by
  exact ⟨by decide, by decide, by decide⟩

/-- Witness for claim C1's theorem at a concrete data-stream store. -/
theorem claim_C1_witness :
    SamplingStore.getReadIndices
        (newSamplingStore ("") DateLayout.ymd (-86400) 604800 1000 true) 3 ⟨0, 0⟩ ⟨86400, 0⟩
      = some [("jaeger.sampling"), ("jaeger-sampling-*")] ∧
    SamplingStore.getLatestIndices
        (newSamplingStore ("") DateLayout.ymd (-86400) 604800 1000 true)
        (fun _ => .ok false) ⟨0, 0⟩ 3
      = some (.ok [("jaeger.sampling"), ("jaeger-sampling-*")], []) := by
  have h := claim_C1_thm (newSamplingStore ("") DateLayout.ymd (-86400) 604800 1000 true)
    3 3 ⟨0, 0⟩ ⟨86400, 0⟩ ⟨0, 0⟩ (fun _ => .ok false) rfl
  refine ⟨?_, ?_⟩
  · rw [h.1]
    decide
  · rw [h.2]
    rfl

/-- Claim C4 counterexample: when the existence check reports the index
absent and the subsequent create call fails because the index already
exists by then (the benign creation race), `DependencyStore.createIndex`
returns that error to the caller instead of suppressing it. -/
theorem claim_C4_cex :
    (DependencyStore.createIndex
        (newDependencyStore ("") DateLayout.ymd (-86400) 1000 false)
        ⟨fun _ => .ok false, fun _ => .error ("resource_already_exists_exception")⟩
        ("jaeger-dependencies-1970-01-01")).1
      = .error ("resource_already_exists_exception") := rfl

/-- Claim C4 (amended): the already-exists case is handled only through
the existence check performed before creating: when the check reports the
index exists, creation is skipped and the operation succeeds; but when
the create call itself fails — including failing because the index
already exists by then — the error is propagated to the caller, not
suppressed. -/
theorem claim_C4_thm (s : DependencyStore) (c : EsClient) (indexName : String)
    (hm : s.useReadWriteAliases = false) :
    (c.indexExists indexName = .ok true →
      s.createIndex c indexName = (.ok (), [.indexExists indexName])) ∧
    (∀ e, c.indexExists indexName = .ok false → c.createIndex indexName = .error e →
      s.createIndex c indexName
        = (.error e, [.indexExists indexName, .createIndex indexName])) := by
  constructor
  · intro hex
    unfold DependencyStore.createIndex
    rw [hm]
    simp only [Bool.false_eq_true, if_false, hex]
  · intro e hex hcr
    unfold DependencyStore.createIndex
    rw [hm]
    simp only [Bool.false_eq_true, if_false, hex, hcr]

/-- Witness for claim C4's theorem: a client whose check reports the index
present leads to skipped creation and success, and a client whose create
call fails propagates the failure. -/
theorem claim_C4_witness :
    DependencyStore.createIndex
        (newDependencyStore ("") DateLayout.ymd (-86400) 1000 false)
        ⟨fun _ => .ok true, fun _ => .ok ()⟩ ("jaeger-dependencies-1970-01-01")
      = (.ok (), [.indexExists ("jaeger-dependencies-1970-01-01")]) ∧
    DependencyStore.createIndex
        (newDependencyStore ("") DateLayout.ymd (-86400) 1000 false)
        ⟨fun _ => .ok false, fun _ => .error ("boom")⟩ ("jaeger-dependencies-1970-01-01")
      = (.error ("boom"), [.indexExists ("jaeger-dependencies-1970-01-01"),
          .createIndex ("jaeger-dependencies-1970-01-01")]) :=
  ⟨(claim_C4_thm _ _ _ rfl).1 rfl, (claim_C4_thm _ _ _ rfl).2 ("boom") rfl rfl⟩

/-- Claim C6: every write issued in data-stream mode carries no explicit
document id and uses the create operation type: the sampling throughput
writes, the sampling probabilities write, and the (spec-modelled)
service/operation record write. -/
theorem claim_C6_thm (s : SamplingStore) (esVersion : Nat)
    (clientOutcome : WriteOp → Except String Unit) (ts : GoTime)
    (throughputs : List Unit) (indexName serviceHash : String)
    (h : s.useDataStream = true) :
    (∀ op ∈ (s.insertThroughput esVersion clientOutcome ts throughputs).1,
      op.id = none ∧ op.opType = ("create")) ∧
    (∀ op ∈ (s.insertProbabilitiesAndQPS esVersion clientOutcome ts).1,
      op.id = none ∧ op.opType = ("create")) ∧
    (writeServiceOp true indexName serviceHash).id = none ∧
    (writeServiceOp true indexName serviceHash).opType = ("create") := by
  refine ⟨?_, ?_, rfl, rfl⟩
  · intro op hop
    simp only [SamplingStore.insertThroughput, List.mem_map] at hop
    obtain ⟨a, -, rfl⟩ := hop
    refine ⟨rfl, ?_⟩
    simp [h]
  · intro op hop
    simp only [SamplingStore.insertProbabilitiesAndQPS, List.mem_singleton] at hop
    subst hop
    refine ⟨rfl, ?_⟩
    simp [h]

/-- Witness for claim C6's theorem at a concrete data-stream store and a
concrete emitted throughput write. -/
theorem claim_C6_witness :
    (⟨("jaeger.sampling"), ("throughput-sampling"), none, ("create")⟩ : WriteOp).id = none ∧
    (⟨("jaeger.sampling"), ("throughput-sampling"), none, ("create")⟩ : WriteOp).opType
      = ("create") :=
  (claim_C6_thm (newSamplingStore ("") DateLayout.ymd (-86400) 604800 1000 true) 7
    (fun _ => .ok ()) ⟨0, 0⟩ [()] ("jaeger.sampling") ("abcd1234") rfl).1
    ⟨("jaeger.sampling"), ("throughput-sampling"), none, ("create")⟩ (by decide)

theorem replaceFirstChar_not_mem {l : List Char} {a : Char} (b : Char) (h : a ∉ l) :
    replaceFirstChar l a b = l := by
  induction l with
  | nil => rfl
  | cons c cs ih =>
    rw [List.mem_cons, not_or] at h
    rw [replaceFirstChar, if_neg (fun hc => h.1 hc.symm), ih h.2]

theorem replaceFirstChar_append {l1 : List Char} (l2 : List Char) {a : Char} (b : Char)
    (h : a ∉ l1) :
    replaceFirstChar (l1 ++ a :: l2) a b = l1 ++ b :: l2 := by
  induction l1 with
  | nil => simp [replaceFirstChar]
  | cons c cs ih =>
    rw [List.mem_cons, not_or] at h
    rw [List.cons_append, replaceFirstChar, if_neg (fun hc => h.1 hc.symm), ih h.2,
      List.cons_append]

/-- Claim C7: the legacy wildcard replaces the first dot of the
data-stream name with a dash and appends the wildcard suffix; a name with
no dot is returned with the suffix appended and no error; in particular
jaeger.span and jaeger.service map to jaeger-span-* and
jaeger-service-*. -/
theorem claim_C7_thm (l1 l2 l3 : List Char) (h1 : '.' ∉ l1) (h3 : '.' ∉ l3) :
    getDataStreamLegacyWildcard (String.mk (l1 ++ '.' :: l2))
      = String.mk (l1 ++ '-' :: l2) ++ "-*" ∧
    getDataStreamLegacyWildcard (String.mk l3) = String.mk l3 ++ "-*" ∧
    getDataStreamLegacyWildcard ("jaeger.span") = ("jaeger-span-*") ∧
    getDataStreamLegacyWildcard ("jaeger.service") = ("jaeger-service-*") := by
  refine ⟨?_, ?_, by decide, by decide⟩
  · unfold getDataStreamLegacyWildcard stringsReplaceFirst
    rw [show (String.mk (l1 ++ '.' :: l2)).data = l1 ++ '.' :: l2 from rfl,
      replaceFirstChar_append l2 '-' h1]
  · unfold getDataStreamLegacyWildcard stringsReplaceFirst
    rw [show (String.mk l3).data = l3 from rfl, replaceFirstChar_not_mem '-' h3]

/-- Witness for claim C7's theorem on a one-character head before the
first dot and on a dot-free name. -/
theorem claim_C7_witness :
    getDataStreamLegacyWildcard (String.mk (['a'] ++ '.' :: ['b']))
      = String.mk (['a'] ++ '-' :: ['b']) ++ "-*" ∧
    getDataStreamLegacyWildcard (String.mk ['n']) = String.mk ['n'] ++ "-*" :=
  ⟨(claim_C7_thm ['a'] ['b'] ['n'] (by decide) (by decide)).1,
   (claim_C7_thm ['a'] ['b'] ['n'] (by decide) (by decide)).2.1⟩

/-- Claim C8: the write target router is mode-deterministic: in
read/write-alias mode the dependency write target is the prefixed base
plus "write" and no client call (existence check or creation) precedes
the write; in dated-index mode the target is the dated name for the write
instant, the first client call is the existence check on that target, and
a creation call follows exactly when the check reports absence; in
data-stream mode the sampling write target is the stable data-stream name
with no date suffix, independent of the write instant. -/
theorem claim_C8_thm (s1 s2 : DependencyStore) (s3 : SamplingStore)
    (c1 c2 : EsClient) (ts1 ts2 ts3 ts3' : GoTime)
    (h1 : s1.useReadWriteAliases = true)
    (h2 : s2.useReadWriteAliases = false)
    (h3 : s3.useDataStream = true) :
    (s1.getWriteIndex ts1 = s1.dependencyIndexPfx ++ "write" ∧
      (s1.writeDependencies c1 ts1).2.1 = [] ∧
      (s1.writeDependencies c1 ts1).1 = .ok ()) ∧
    (s2.getWriteIndex ts2 = indexWithDate s2.dependencyIndexPfx s2.indexDateLayout ts2 ∧
      (s2.writeDependencies c2 ts2).2.1.head?
        = some (.indexExists (s2.getWriteIndex ts2)) ∧
      (c2.indexExists (s2.getWriteIndex ts2) = .ok false →
        (s2.writeDependencies c2 ts2).2.1
          = [.indexExists (s2.getWriteIndex ts2), .createIndex (s2.getWriteIndex ts2)])) ∧
    (s3.getWriteIndex ts3 = s3.samplingIndexPfx ∧
      s3.getWriteIndex ts3 = s3.getWriteIndex ts3') := by
  refine ⟨⟨?_, ?_, ?_⟩, ⟨?_, ?_, ?_⟩, ?_, ?_⟩
  · unfold DependencyStore.getWriteIndex
    rw [h1]
    simp
  · unfold DependencyStore.writeDependencies DependencyStore.createIndex
    rw [h1]
    simp
  · unfold DependencyStore.writeDependencies DependencyStore.createIndex
    rw [h1]
    simp
  · unfold DependencyStore.getWriteIndex
    rw [h2]
    simp
  · unfold DependencyStore.writeDependencies DependencyStore.createIndex
    rw [h2]
    simp only [Bool.false_eq_true, if_false]
    cases hx : c2.indexExists (s2.getWriteIndex ts2) with
    | error e => simp
    | ok b =>
      cases b
      · cases hcr : c2.createIndex (s2.getWriteIndex ts2) with
        | error e => simp
        | ok u => simp
      · simp
  · intro hex
    unfold DependencyStore.writeDependencies DependencyStore.createIndex
    rw [h2]
    simp only [Bool.false_eq_true, if_false, hex]
    cases hcr : c2.createIndex (s2.getWriteIndex ts2) with
    | error e => simp
    | ok u => simp
  · unfold SamplingStore.getWriteIndex
    rw [h3]
    simp
  · unfold SamplingStore.getWriteIndex
    rw [h3]
    simp

/-- Witness for claim C8's theorem at concrete stores in each of the
three storage modes. -/
theorem claim_C8_witness :
    DependencyStore.getWriteIndex
        (newDependencyStore ("") DateLayout.ymd (-86400) 1000 true) ⟨0, 0⟩
      = ("jaeger-dependencies-write") ∧
    DependencyStore.getWriteIndex
        (newDependencyStore ("") DateLayout.ymd (-86400) 1000 false) ⟨0, 0⟩
      = ("jaeger-dependencies-1970-01-01") ∧
    SamplingStore.getWriteIndex
        (newSamplingStore ("") DateLayout.ymd (-86400) 604800 1000 true) ⟨0, 0⟩
      = ("jaeger.sampling") := by
  have h := claim_C8_thm (newDependencyStore ("") DateLayout.ymd (-86400) 1000 true)
    (newDependencyStore ("") DateLayout.ymd (-86400) 1000 false)
    (newSamplingStore ("") DateLayout.ymd (-86400) 604800 1000 true)
    ⟨fun _ => .ok true, fun _ => .ok ()⟩ ⟨fun _ => .ok false, fun _ => .ok ()⟩
    ⟨0, 0⟩ ⟨0, 0⟩ ⟨0, 0⟩ ⟨86400, 0⟩ rfl rfl rfl
  refine ⟨?_, ?_, ?_⟩
  · rw [h.1.1]
    decide
  · rw [h.2.1.1]
    decide
  · rw [h.2.2.1]
    decide

/-- Claim C9: `IndexWithDate` is a pure total function that formats the
instant in UTC — its result does not depend on the display location of
the given time value — and gives equal names to any two instants in the
same layout period; at 2025-01-01T00:00Z with prefix jaeger-span- and the
day layout it yields jaeger-span-2025-01-01. -/
theorem claim_C9_thm (p : String) (l : DateLayout) (e1 e2 z1 z2 z3 : Int)
    (h : e1 / layoutGranularity l = e2 / layoutGranularity l) :
    indexWithDate p l ⟨e1, z1⟩ = indexWithDate p l ⟨e1, z3⟩ ∧
    indexWithDate p l ⟨e1, z1⟩ = indexWithDate p l ⟨e2, z2⟩ ∧
    indexWithDate ("jaeger-span-") DateLayout.ymd ⟨1735689600, 0⟩
      = ("jaeger-span-2025-01-01") := by
  refine ⟨rfl, ?_, by decide⟩
  rw [indexWithDate_eq, indexWithDate_eq]
  show p ++ renderPeriod l (e1 / layoutGranularity l)
      = p ++ renderPeriod l (e2 / layoutGranularity l)
  rw [h]

/-- Witness for claim C9's theorem: two instants one hour apart inside
2025-01-01, carried with different display locations, format to the same
name. -/
theorem claim_C9_witness :
    indexWithDate ("jaeger-span-") DateLayout.ymd ⟨1735689600, 3600⟩
      = indexWithDate ("jaeger-span-") DateLayout.ymd ⟨1735693200, -7200⟩ :=
  (claim_C9_thm ("jaeger-span-") DateLayout.ymd 1735689600 1735693200 3600 (-7200) 0
    (by decide)).2.1

/-- Claim C10: `InsertThroughput` and `InsertProbabilitiesAndQPS` return a
nil error for every input and every client behavior, and their emitted
writes do not depend on the client's answers — the result of the
underlying index operation is discarded. -/
theorem claim_C10_thm (s : SamplingStore) (esVersion : Nat)
    (o1 o2 : WriteOp → Except String Unit) (ts : GoTime) (throughputs : List Unit) :
    (s.insertThroughput esVersion o1 ts throughputs).2 = none ∧
    (s.insertProbabilitiesAndQPS esVersion o1 ts).2 = none ∧
    s.insertThroughput esVersion o1 ts throughputs
      = s.insertThroughput esVersion o2 ts throughputs ∧
    s.insertProbabilitiesAndQPS esVersion o1 ts
      = s.insertProbabilitiesAndQPS esVersion o2 ts :=
  ⟨rfl, rfl, rfl, rfl⟩

theorem ediv_sub_ediv_le_ceil (g L a : Int) (hg : 0 < g) (_hL : 0 ≤ L) :
    a / g - (a - L) / g ≤ (L + g - 1) / g := by
  have hq : L ≤ ((L + g - 1) / g) * g := by
    have h := Int.lt_ediv_add_one_mul_self (L + g - 1) hg
    rw [add_mul, one_mul] at h
    omega
  have h2 : a - ((L + g - 1) / g) * g ≤ a - L := by omega
  have h3 : (a - ((L + g - 1) / g) * g) / g = a / g - (L + g - 1) / g := by
    have h5 := Int.add_mul_ediv_right a (-((L + g - 1) / g)) (by omega : g ≠ 0)
    rw [show a + -((L + g - 1) / g) * g = a - ((L + g - 1) / g) * g by ring] at h5
    rw [h5]
    ring
  have h4 := Int.ediv_le_ediv hg h2
  rw [h3] at h4
  omega

theorem latestLoop_char (pfx : String) (l : DateLayout) (lo : Int) (existsB : String → Bool) :
    ∀ (n fuel : Nat) (t : GoTime),
      t.epoch / layoutGranularity l = lo + n →
      n < fuel →
      ((periodsDesc lo (lo + n)).map (fun k => pfx ++ renderPeriod l k)).Nodup →
      (∃ k, lo ≤ k ∧ k ≤ lo + n ∧
        existsB (pfx ++ renderPeriod l k) = true ∧
        (∀ j, k < j → j ≤ lo + n → existsB (pfx ++ renderPeriod l j) = false) ∧
        latestLoop pfx l (-(layoutGranularity l)) (pfx ++ renderPeriod l lo)
            (fun nm => .ok (existsB nm)) fuel t
          = some (.ok [pfx ++ renderPeriod l k],
              (periodsDesc k (lo + n)).map (fun j => pfx ++ renderPeriod l j))) ∨
      ((∀ j, lo ≤ j → j ≤ lo + n → existsB (pfx ++ renderPeriod l j) = false) ∧
        latestLoop pfx l (-(layoutGranularity l)) (pfx ++ renderPeriod l lo)
            (fun nm => .ok (existsB nm)) fuel t
          = some (.error ("falied to find latest index"),
              (periodsDesc lo (lo + n)).map (fun j => pfx ++ renderPeriod l j))) := by
  intro n
  induction n with
  | zero =>
    intro fuel t ht hfuel _
    obtain ⟨m, rfl⟩ : ∃ m, fuel = m + 1 := ⟨fuel - 1, by omega⟩
    rw [Nat.cast_zero, add_zero] at ht ⊢
    cases hB : existsB (pfx ++ renderPeriod l lo) with
    | true =>
      left
      refine ⟨lo, le_refl lo, le_refl lo, hB,
        fun j hj1 hj2 => absurd (lt_of_lt_of_le hj1 hj2) (lt_irrefl lo), ?_⟩
      simp only [latestLoop, indexWithDate_eq, ht, hB]
      rw [periodsDesc_self]
      rfl
    | false =>
      right
      refine ⟨fun j hj1 hj2 => by rw [le_antisymm hj2 hj1]; exact hB, ?_⟩
      simp only [latestLoop, indexWithDate_eq, ht, hB]
      rw [periodsDesc_self]
      simp
  | succ n ih =>
    intro fuel t ht hfuel hnodup
    obtain ⟨m, rfl⟩ : ∃ m, fuel = m + 1 := ⟨fuel - 1, by omega⟩
    have hcast : lo + ((n + 1 : Nat) : Int) = (lo + n) + 1 := by push_cast; ring
    rw [hcast] at ht hnodup ⊢
    have hcons : periodsDesc lo ((lo + n) + 1) = ((lo + n) + 1) :: periodsDesc lo (lo + n) :=
      periodsDesc_cons (by omega)
    cases hB : existsB (pfx ++ renderPeriod l ((lo + n) + 1)) with
    | true =>
      left
      refine ⟨(lo + n) + 1, by omega, le_refl _, hB,
        fun j hj1 hj2 => absurd (lt_of_lt_of_le hj1 hj2) (lt_irrefl _), ?_⟩
      simp only [latestLoop, indexWithDate_eq, ht, hB]
      rw [periodsDesc_self]
      rfl
    | false =>
      rw [hcons] at hnodup
      rw [List.map_cons] at hnodup
      rw [List.nodup_cons] at hnodup
      have hlomem : pfx ++ renderPeriod l lo
          ∈ (periodsDesc lo (lo + n)).map (fun k => pfx ++ renderPeriod l k) :=
        List.mem_map.mpr ⟨lo, (mem_periodsDesc (by omega)).mpr ⟨le_refl lo, by omega⟩, rfl⟩
      have hne : pfx ++ renderPeriod l ((lo + n) + 1) ≠ pfx ++ renderPeriod l lo := by
        intro hEq
        refine hnodup.1 ?_
        rw [hEq]
        exact hlomem
      have hg : layoutGranularity l ≠ 0 := by
        have := layoutGranularity_pos l
        omega
      have ht' : (t.addDur (-(layoutGranularity l))).epoch / layoutGranularity l = lo + n := by
        have h3 : (t.addDur (-(layoutGranularity l))).epoch
            = t.epoch + (-1) * layoutGranularity l := by
          show t.epoch + (-(layoutGranularity l)) = t.epoch + (-1) * layoutGranularity l
          ring
        rw [h3, Int.add_mul_ediv_right t.epoch (-1) hg, ht]
        ring
      obtain hrec | hrec := ih m (t.addDur (-(layoutGranularity l))) ht' (by omega) hnodup.2
      · obtain ⟨k, hk1, hk2, hkB, hkmax, hloop⟩ := hrec
        left
        refine ⟨k, hk1, by omega, hkB, ?_, ?_⟩
        · intro j hj1 hj2
          by_cases hj : j = (lo + n) + 1
          · rw [hj]
            exact hB
          · exact hkmax j hj1 (by omega)
        · simp only [latestLoop, indexWithDate_eq, ht, hB]
          rw [if_neg hne, hloop]
          have hck : periodsDesc k ((lo + n) + 1) = ((lo + n) + 1) :: periodsDesc k (lo + n) :=
            periodsDesc_cons (by omega)
          rw [hck, List.map_cons]
          rfl
      · obtain ⟨hall, hloop⟩ := hrec
        right
        refine ⟨?_, ?_⟩
        · intro j hj1 hj2
          by_cases hj : j = (lo + n) + 1
          · rw [hj]
            exact hB
          · exact hall j hj1 (by omega)
        · simp only [latestLoop, indexWithDate_eq, ht, hB]
          rw [if_neg hne, hloop]
          rw [hcons, List.map_cons]
          rfl

/-- Claim C5 (amended): in dated-index mode, with a rollover frequency of
exactly minus one layout period, a non-negative lookback, and
pairwise-distinct names over the scanned window, the latest-index scan
returns the single name of the most recent period whose index exists; if
no name in the window exists it fails with the not-found error; it checks
at most `⌈lookback / rolloverFrequency⌉ + 1` names (equal to
`lookback / rolloverFrequency + 1` when the frequency divides the
lookback), and every checked name is the name of a period intersecting
`[now - lookback, now]`. -/
theorem claim_C5_thm (s : SamplingStore) (existsB : String → Bool) (now : GoTime)
    (fuel : Nat)
    (hm : s.useDataStream = false)
    (hf : s.indexRolloverFrequency = -(layoutGranularity s.indexDateLayout))
    (hlb : 0 ≤ s.lookback)
    (hfuel : (now.epoch / layoutGranularity s.indexDateLayout
        - (now.epoch - s.lookback) / layoutGranularity s.indexDateLayout).toNat < fuel)
    (hnodup : ((periodsDesc ((now.epoch - s.lookback) / layoutGranularity s.indexDateLayout)
          (now.epoch / layoutGranularity s.indexDateLayout)).map
        (fun k => s.samplingIndexPfx ++ renderPeriod s.indexDateLayout k)).Nodup) :
    ∃ res checked,
      s.getLatestIndices (fun nm => .ok (existsB nm)) now fuel = some (res, checked) ∧
      checked.length
        ≤ ((s.lookback + layoutGranularity s.indexDateLayout - 1)
            / layoutGranularity s.indexDateLayout).toNat + 1 ∧
      (∀ nm ∈ checked, ∃ k,
        (now.epoch - s.lookback) / layoutGranularity s.indexDateLayout ≤ k ∧
        k ≤ now.epoch / layoutGranularity s.indexDateLayout ∧
        nm = s.samplingIndexPfx ++ renderPeriod s.indexDateLayout k) ∧
      ((∃ k, (now.epoch - s.lookback) / layoutGranularity s.indexDateLayout ≤ k ∧
          k ≤ now.epoch / layoutGranularity s.indexDateLayout ∧
          existsB (s.samplingIndexPfx ++ renderPeriod s.indexDateLayout k) = true ∧
          (∀ j, k < j → j ≤ now.epoch / layoutGranularity s.indexDateLayout →
            existsB (s.samplingIndexPfx ++ renderPeriod s.indexDateLayout j) = false) ∧
          res = .ok [s.samplingIndexPfx ++ renderPeriod s.indexDateLayout k]) ∨
        ((∀ j, (now.epoch - s.lookback) / layoutGranularity s.indexDateLayout ≤ j →
            j ≤ now.epoch / layoutGranularity s.indexDateLayout →
            existsB (s.samplingIndexPfx ++ renderPeriod s.indexDateLayout j) = false) ∧
          res = .error ("falied to find latest index"))) := by
  have hgpos := layoutGranularity_pos s.indexDateLayout
  have hle : (now.epoch - s.lookback) / layoutGranularity s.indexDateLayout
      ≤ now.epoch / layoutGranularity s.indexDateLayout :=
    Int.ediv_le_ediv hgpos (by omega)
  have hED : (now.epoch - s.lookback) / layoutGranularity s.indexDateLayout
      + ((now.epoch / layoutGranularity s.indexDateLayout
          - (now.epoch - s.lookback) / layoutGranularity s.indexDateLayout).toNat : Int)
      = now.epoch / layoutGranularity s.indexDateLayout := by omega
  have hceil := ediv_sub_ediv_le_ceil (layoutGranularity s.indexDateLayout) s.lookback
    now.epoch hgpos hlb
  have hceilnn : 0 ≤ (s.lookback + layoutGranularity s.indexDateLayout - 1)
      / layoutGranularity s.indexDateLayout :=
    Int.ediv_nonneg (by omega) hgpos.le
  have hEarl : indexWithDate s.samplingIndexPfx s.indexDateLayout
        ((now.utc).addDur (-s.lookback))
      = s.samplingIndexPfx ++ renderPeriod s.indexDateLayout
          ((now.epoch - s.lookback) / layoutGranularity s.indexDateLayout) := by
    rw [indexWithDate_eq]
    have h5 : ((now.utc).addDur (-s.lookback)).epoch = now.epoch - s.lookback := by
      show now.epoch + (-s.lookback) = now.epoch - s.lookback
      ring
    rw [h5]
  have hrec := latestLoop_char s.samplingIndexPfx s.indexDateLayout
    ((now.epoch - s.lookback) / layoutGranularity s.indexDateLayout) existsB
    ((now.epoch / layoutGranularity s.indexDateLayout
      - (now.epoch - s.lookback) / layoutGranularity s.indexDateLayout).toNat) fuel now.utc
    (by
      show now.epoch / layoutGranularity s.indexDateLayout = _
      rw [hED])
    hfuel (by rw [hED]; exact hnodup)
  have hunfold : s.getLatestIndices (fun nm => .ok (existsB nm)) now fuel
      = latestLoop s.samplingIndexPfx s.indexDateLayout
          (-(layoutGranularity s.indexDateLayout))
          (s.samplingIndexPfx ++ renderPeriod s.indexDateLayout
            ((now.epoch - s.lookback) / layoutGranularity s.indexDateLayout))
          (fun nm => .ok (existsB nm)) fuel now.utc := by
    simp only [SamplingStore.getLatestIndices, hm, Bool.false_eq_true, if_false]
    rw [hf, hEarl]
  obtain ⟨k, hk1, hk2, hkB, hkmax, hloop⟩ | ⟨hall, hloop⟩ := hrec
  · rw [hED] at hk2 hkmax hloop
    refine ⟨.ok [s.samplingIndexPfx ++ renderPeriod s.indexDateLayout k],
      (periodsDesc k (now.epoch / layoutGranularity s.indexDateLayout)).map
        (fun j => s.samplingIndexPfx ++ renderPeriod s.indexDateLayout j),
      by rw [hunfold, hloop], ?_, ?_, ?_⟩
    · rw [List.length_map, length_periodsDesc]
      omega
    · intro nm hnm
      obtain ⟨j, hj, rfl⟩ := List.mem_map.mp hnm
      rw [mem_periodsDesc hk2] at hj
      exact ⟨j, by omega, hj.2, rfl⟩
    · exact Or.inl ⟨k, hk1, hk2, hkB, hkmax, rfl⟩
  · rw [hED] at hall hloop
    refine ⟨.error ("falied to find latest index"),
      (periodsDesc ((now.epoch - s.lookback) / layoutGranularity s.indexDateLayout)
        (now.epoch / layoutGranularity s.indexDateLayout)).map
        (fun j => s.samplingIndexPfx ++ renderPeriod s.indexDateLayout j),
      by rw [hunfold, hloop], ?_, ?_, ?_⟩
    · rw [List.length_map, length_periodsDesc]
      omega
    · intro nm hnm
      obtain ⟨j, hj, rfl⟩ := List.mem_map.mp hnm
      rw [mem_periodsDesc hle] at hj
      exact ⟨j, hj.1, hj.2, rfl⟩
    · exact Or.inr ⟨hall, rfl⟩

/-- Claim C5 counterexample: with a one-day rollover and a two-second
lookback crossing a midnight boundary, the scan checks two names while
the claimed bound `lookback / rolloverFrequency + 1` is one — the stated
bound fails whenever the frequency does not divide the lookback. -/
theorem claim_C5_cex :
    SamplingStore.getLatestIndices ⟨("p-"), DateLayout.ymd, 1000, -86400, 2, false⟩
        (fun _ => .ok false) ⟨86401, 0⟩ 5
      = some (.error ("falied to find latest index"),
          [("p-1970-01-02"), ("p-1970-01-01")]) ∧
    ¬ (([("p-1970-01-02"), ("p-1970-01-01")] : List String).length
        ≤ ((2 : Int) / 86400).toNat + 1) := by
  exact ⟨rfl, by decide⟩

/-- Witness for claim C5's theorem: a two-day lookback at one-day
rollover, no index existing, yields a bounded scan within the ceiling
bound. -/
theorem claim_C5_witness :
    ∃ res checked,
      SamplingStore.getLatestIndices ⟨("p-"), DateLayout.ymd, 1000, -86400, 172800, false⟩
          (fun _ => .ok false) ⟨172900, 0⟩ 5 = some (res, checked) ∧
      checked.length ≤ (((172800 : Int) + 86400 - 1) / 86400).toNat + 1 := by
  obtain ⟨res, checked, h1, h2, -, -⟩ := claim_C5_thm
    ⟨("p-"), DateLayout.ymd, 1000, -86400, 172800, false⟩ (fun _ => false) ⟨172900, 0⟩ 5
    rfl (by decide) (by decide) (by decide) (by decide)
  exact ⟨res, checked, h1, h2⟩
